import Mathlib

/-!
Verification of the multi-platform publication orchestrator
(`services/post_service.py`, `services/social_media_service.py`, `models.py`
of the social media manager repository) against its natural-language
specification.

The embedding is shallow: Python dicts become association lists over a
JSON-like value type, HTTP traffic becomes an oracle function from requests
to outcomes, the ORM's per-post publication table becomes an explicit list
of records threaded through the orchestrator, and a Python exception that
escapes a call is an `Except.error`. Every definition is translated from
the source file, not from the specification's words.
-/

/-- JSON-like values: the shape of Python dict/list/str/int/bool/None data
that flows through the adapters and the orchestrator. -/
inductive Json where
  | null
  | bool (b : Bool)
  | num (n : Int)
  | str (s : String)
  | arr (elems : List Json)
  | obj (fields : List (String × Json))

/-- Python dict lookup (`d.get(k)` / `d[k]`), first matching key. The dicts
the code builds have distinct keys, so first-match agrees with dict
semantics. -/
def alGet {β : Type} : List (String × β) → String → Option β
  | [], _ => none
  | (k, v) :: rest, key => if k = key then some v else alGet rest key

/-- Python `key in d` on a dict. -/
def alHas {β : Type} (d : List (String × β)) (key : String) : Bool :=
  (alGet d key).isSome

/-- Python `d.get(key, dflt)`. -/
def alGetD (d : List (String × Json)) (key : String) (dflt : Json) : Json :=
  (alGet d key).getD dflt

/-- Python dict assignment `d[key] = v`: overwrite in place if the key
exists, append otherwise. -/
def alSet {β : Type} : List (String × β) → String → β → List (String × β)
  | [], key, v => [(key, v)]
  | (k, w) :: rest, key, v =>
    if k = key then (k, v) :: rest else (k, w) :: alSet rest key v

/-- Python truthiness of a JSON-like value (`if x:`). -/
def truthy : Json → Bool
  | .null => false
  | .bool b => b
  | .num n => decide (n ≠ 0)
  | .str s => decide (s ≠ "")
  | .arr elems => !elems.isEmpty
  | .obj fields => !fields.isEmpty

/-- Python truthiness of `d.get(k)`: `None` (missing key) is falsy. -/
def truthyO : Option Json → Bool
  | none => false
  | some v => truthy v

/-- SocialMediaAccount (models.py): the fields the orchestrator and the
adapters read. The owning user is fixed (one post, one user), so it is not
a field of the model here. -/
structure Account where
  platform : String
  account_id : String
  access_token : String
  is_active : Bool
deriving DecidableEq

/-- The body/params a request carries. `json.dumps` serialisation of the
`attached_media` form field is represented structurally (as the dumped
array) since no behaviour depends on the rendered string. -/
inductive Payload where
  | empty
  | form (data : List (String × Json))
  | jsonBody (data : List (String × Json))
  | files

/-- One HTTP request as `requests.request(method, url, **kwargs)` receives
it. -/
structure Request where
  method : String
  url : String
  headers : List (String × String)
  query : List (String × String)
  payload : Payload

/-- What the network does with one request, as seen by `_make_request`:
`requests.request` raises (network error), `raise_for_status` raises
(non-2xx), `response.json()` raises (2xx non-JSON body; a
`requests.exceptions.JSONDecodeError`, a `RequestException` in the pinned
requests 2.31), or a 2xx JSON object body is returned. -/
inductive HttpOutcome where
  | netError (msg : String)
  | httpError (msg : String)
  | nonJson (msg : String)
  | ok (body : List (String × Json))

/-- The ambient network: an oracle the adapters consult per request. -/
abbrev Net : Type := Request → HttpOutcome

/-- SocialMediaAPI._make_request: every `RequestException` is caught and
returned as a dict with only an error key; a 2xx JSON body is returned
as-is. -/
def make_request (net : Net) (r : Request) : List (String × Json) :=
  match net r with
  | .netError msg => [("error", Json.str msg)]
  | .httpError msg => [("error", Json.str msg)]
  | .nonJson msg => [("error", Json.str msg)]
  | .ok body => body

/-- settings.SOCIAL_MEDIA_APIS FACEBOOK BASE_URL. -/
def FB_BASE_URL : String := "https://graph.facebook.com/"

/-- settings.SOCIAL_MEDIA_APIS FACEBOOK API_VERSION. -/
def FB_API_VERSION : String := "v18.0"

/-- URL of FacebookAPI._upload_media's photos endpoint. -/
def FacebookAPI.photos_url (acct : Account) : String :=
  FB_BASE_URL ++ "/" ++ FB_API_VERSION ++ "/" ++ acct.account_id ++ "/photos"

/-- URL of FacebookAPI.create_post's feed endpoint. -/
def FacebookAPI.feed_url (acct : Account) : String :=
  FB_BASE_URL ++ "/" ++ FB_API_VERSION ++ "/" ++ acct.account_id ++ "/feed"

/-- URL of FacebookAPI.delete_post / get_post_analytics object endpoint. -/
def FacebookAPI.object_url (post_id : String) : String :=
  FB_BASE_URL ++ "/" ++ FB_API_VERSION ++ "/" ++ post_id

/-- The request FacebookAPI._upload_media sends. -/
def FacebookAPI.photos_request (acct : Account) (media_url : String) : Request :=
  { method := "POST", url := FacebookAPI.photos_url acct, headers := [], query := [],
    payload := .form [("url", Json.str media_url), ("published", Json.str "false"),
                      ("access_token", Json.str acct.access_token)] }

/-- FacebookAPI._upload_media: returns `result.get('id')` unless the result
carries an error key, in which case None. -/
def FacebookAPI.upload_media (net : Net) (acct : Account) (media_url : String) : Option Json :=
  let result := make_request net (FacebookAPI.photos_request acct media_url)
  if alHas result "error" then none else alGet result "id"

/-- The media-id collection loop of FacebookAPI.create_post: upload each
URL in order, keep the truthy ids (`if media_id:`), skip failures. -/
def FacebookAPI.media_ids (net : Net) (acct : Account) (media_urls : List String) : List Json :=
  media_urls.filterMap fun media_url =>
    match FacebookAPI.upload_media net acct media_url with
    | some v => if truthy v then some v else none
    | none => none

/-- The request FacebookAPI.create_post sends to the feed endpoint. -/
def FacebookAPI.feed_request (acct : Account) (data : List (String × Json)) : Request :=
  { method := "POST", url := FacebookAPI.feed_url acct, headers := [], query := [],
    payload := .form data }

/-- FacebookAPI.create_post: build the message data, attach the uploaded
media ids when any upload succeeded (`if media_ids:`), and POST to the feed
endpoint. `media_urls = []` models the `None`/empty default (`if
media_urls:` is false for both). -/
def FacebookAPI.create_post (net : Net) (acct : Account) (content : String)
    (media_urls : List String) : List (String × Json) :=
  let base := [("message", Json.str content), ("access_token", Json.str acct.access_token)]
  let data :=
    if media_urls.isEmpty then base
    else
      let ids := FacebookAPI.media_ids net acct media_urls
      if ids.isEmpty then base
      else base ++ [("attached_media",
        Json.arr (ids.map fun mid => Json.obj [("media_fbid", mid)]))]
  make_request net (FacebookAPI.feed_request acct data)

/-- The request FacebookAPI.delete_post sends. -/
def FacebookAPI.delete_request (acct : Account) (post_id : String) : Request :=
  { method := "DELETE", url := FacebookAPI.object_url post_id, headers := [],
    query := [("access_token", acct.access_token)], payload := .empty }

/-- FacebookAPI.delete_post: true iff the response dict has no error key. -/
def FacebookAPI.delete_post (net : Net) (acct : Account) (post_id : String) : Bool :=
  let result := make_request net (FacebookAPI.delete_request acct post_id)
  !(alHas result "error")

/-- settings.SOCIAL_MEDIA_APIS TWITTER BASE_URL. -/
def TW_BASE_URL : String := "https://api.twitter.com/2/"

/-- TwitterAPI._upload_media's upload endpoint. -/
def TW_UPLOAD_URL : String := "https://upload.twitter.com/1.1/media/upload.json"

/-- What the direct `requests.get(media_url)` in TwitterAPI._upload_media
does: it is NOT wrapped by `_make_request`, so it either raises (the
exception escapes the adapter) or yields a status code and raw content. -/
inductive GetOutcome where
  | raises (msg : String)
  | resp (status : Nat) (content : String)

/-- Oracle for the direct media download of TwitterAPI._upload_media. -/
abbrev RawGet : Type := String → GetOutcome

/-- The request TwitterAPI._upload_media sends to the upload endpoint. -/
def TwitterAPI.upload_request (acct : Account) : Request :=
  { method := "POST", url := TW_UPLOAD_URL,
    headers := [("Authorization", "Bearer " ++ acct.access_token)], query := [],
    payload := .files }

/-- TwitterAPI._upload_media: download the media with a bare
`requests.get` (an exception propagates — `Except.error`), return None on a
non-200 download, else upload and return `result.get('media_id_string')`
unless the upload result carries an error key. -/
def TwitterAPI.upload_media (net : Net) (rawGet : RawGet) (acct : Account)
    (media_url : String) : Except String (Option Json) :=
  match rawGet media_url with
  | .raises msg => .error msg
  | .resp status _ =>
    if status ≠ 200 then .ok none
    else
      let result := make_request net (TwitterAPI.upload_request acct)
      .ok (if alHas result "error" then none else alGet result "media_id_string")

/-- The media-id collection loop of TwitterAPI.create_post: an exception
from an upload propagates out of the loop; truthy ids are collected in
order. -/
def TwitterAPI.media_ids (net : Net) (rawGet : RawGet) (acct : Account) :
    List String → Except String (List Json)
  | [] => .ok []
  | media_url :: rest =>
    match TwitterAPI.upload_media net rawGet acct media_url with
    | .error msg => .error msg
    | .ok mid =>
      match TwitterAPI.media_ids net rawGet acct rest with
      | .error msg => .error msg
      | .ok ids => .ok (match mid with
          | some v => if truthy v then v :: ids else ids
          | none => ids)

/-- The request TwitterAPI.create_post sends to the tweets endpoint. -/
def TwitterAPI.tweets_request (acct : Account) (data : List (String × Json)) : Request :=
  { method := "POST", url := TW_BASE_URL ++ "/tweets",
    headers := [("Authorization", "Bearer " ++ acct.access_token),
                ("Content-Type", "application/json")],
    query := [], payload := .jsonBody data }

/-- TwitterAPI.create_post: `{'text': content}`, media ids attached when
any upload succeeded; a media-download exception escapes the whole call
(`Except.error`). -/
def TwitterAPI.create_post (net : Net) (rawGet : RawGet) (acct : Account)
    (content : String) (media_urls : List String) :
    Except String (List (String × Json)) :=
  if media_urls.isEmpty then
    .ok (make_request net (TwitterAPI.tweets_request acct [("text", Json.str content)]))
  else
    match TwitterAPI.media_ids net rawGet acct media_urls with
    | .error msg => .error msg
    | .ok ids =>
      let base := [("text", Json.str content)]
      let data := if ids.isEmpty then base
        else base ++ [("media", Json.obj [("media_ids", Json.arr ids)])]
      .ok (make_request net (TwitterAPI.tweets_request acct data))

/-- The request TwitterAPI.delete_post sends. -/
def TwitterAPI.delete_request (acct : Account) (post_id : String) : Request :=
  { method := "DELETE", url := TW_BASE_URL ++ "/tweets/" ++ post_id,
    headers := [("Authorization", "Bearer " ++ acct.access_token)], query := [],
    payload := .empty }

/-- TwitterAPI.delete_post: true iff the response dict has no error key. -/
def TwitterAPI.delete_post (net : Net) (acct : Account) (post_id : String) : Bool :=
  let result := make_request net (TwitterAPI.delete_request acct post_id)
  !(alHas result "error")

/-- Post (models.py): the fields PostService.publish_post reads and
writes. -/
structure Post where
  content : String
  platforms : List String
  status : String
  published_date : Option Nat

/-- PostPublication (models.py), for one fixed post: the record
PostService.publish_post creates per dispatched account. `unique_together =
[post, account]` makes (post, account) a database-level unique key. -/
structure Publication where
  account : Account
  platform_post_id : Json
  published_at : Option Nat
  error_message : Json
  is_success : Bool

/-- The PostPublication field values publish_post computes from an adapter
result dict (factory.py lines 492-499). -/
def mkPublication (account : Account) (result : List (String × Json)) (now : Nat) :
    Publication :=
  { account := account
    platform_post_id := alGetD result "id" (Json.str "")
    published_at := if alHas result "error" then none else some now
    error_message := alGetD result "error" (Json.str "")
    is_success := !(alHas result "error") }

/-- The publication table restricted to one post. -/
abbrev DB : Type := List Publication

/-- `PostPublication.objects.create(...)`: a plain INSERT. The
unique_together constraint on (post, account) makes the database reject a
row whose account already has one for this post, which Django surfaces as
an IntegrityError. -/
def dbCreate (db : DB) (pub : Publication) : Except String DB :=
  if db.any (fun q => decide (q.account = pub.account)) then
    .error "IntegrityError: UNIQUE constraint failed post_id, account_id"
  else .ok (db ++ [pub])

/-- PostService.API_CLASSES membership: facebook, twitter and linkedin have
adapters; instagram (and anything else) does not. -/
def supported (platform : String) : Bool :=
  platform == "facebook" || platform == "twitter" || platform == "linkedin"

/-- Result of `SocialMediaAccount.objects.get(user=..., platform=...,
is_active=True)`: the row, DoesNotExist, or any other exception the ORM
raises (e.g. MultipleObjectsReturned), which the generic except clause
catches. -/
inductive Lookup where
  | notFound
  | found (account : Account)
  | errs (msg : String)

/-- The collaborators of one publish_post call: the account resolver, the
adapter dispatch (`api_class(account).create_post(post.content,
media_urls)` under the ambient network, an escaping exception being
`Except.error`), and the current time. -/
structure PubEnv where
  lookup : String → Lookup
  createPost : String → Account → Except String (List (String × Json))
  now : Nat

/-- The per-platform outcome dict publish_post returns (keyed by platform,
a Python dict). -/
abbrev ResMap : Type := List (String × List (String × Json))

/-- The outcome dict publish_post stores for a created publication record
(factory.py lines 501-505). -/
def pubOutcome (pub : Publication) : List (String × Json) :=
  [("success", Json.bool pub.is_success), ("post_id", pub.platform_post_id),
   ("error", pub.error_message)]

/-- One iteration of publish_post's platform loop (factory.py lines
472-510): resolve the account, check the adapter registry, call the
adapter, insert the publication record; every failure of any of these steps
is caught and stored as that platform's error outcome. -/
def publishStep (env : PubEnv) (acc : DB × ResMap) (platform : String) : DB × ResMap :=
  match env.lookup platform with
  | .notFound =>
    (acc.1, alSet acc.2 platform
      [("error", Json.str ("No active " ++ platform ++ " account found"))])
  | .errs msg => (acc.1, alSet acc.2 platform [("error", Json.str msg)])
  | .found account =>
    if supported platform then
      match env.createPost platform account with
      | .error msg => (acc.1, alSet acc.2 platform [("error", Json.str msg)])
      | .ok result =>
        match dbCreate acc.1 (mkPublication account result env.now) with
        | .error msg => (acc.1, alSet acc.2 platform [("error", Json.str msg)])
        | .ok db2 =>
          (db2, alSet acc.2 platform (pubOutcome (mkPublication account result env.now)))
    else
      (acc.1, alSet acc.2 platform
        [("error", Json.str ("Platform " ++ platform ++ " not supported"))])

/-- The platform loop of publish_post. -/
def publishFold (env : PubEnv) (post : Post) (db : DB) : DB × ResMap :=
  post.platforms.foldl (publishStep env) (db, [])

/-- `successful_platforms` is non-empty: some outcome has a truthy
`r.get('success')` (factory.py line 513). -/
def successfulB (results : ResMap) : Bool :=
  results.any fun pr => truthyO (alGet pr.2 "success")

/-- PostService.publish_post (factory.py lines 467-522): run the platform
loop, then aggregate — if any outcome succeeded the post becomes published
and published_date is assigned `timezone.now()`, else it becomes failed.
Returns the updated post, the publication table and the outcome map. -/
def publish_post (env : PubEnv) (post : Post) (db : DB) : Post × DB × ResMap :=
  (if successfulB (publishFold env post db).2 then
     { post with status := "published", published_date := some env.now }
   else { post with status := "failed" },
   (publishFold env post db).1, (publishFold env post db).2)

/-- Adapter analytics oracle for PostService.get_post_analytics:
`api.get_post_analytics(publication.platform_post_id)` under the ambient
network; an escaping exception is `Except.error`, an empty dict models the
adapters' "not available" result. -/
structure AnaEnv where
  getAnalytics : Account → Json → Except String (List (String × Json))

/-- The PostAnalytics model's field defaults (models.py lines 114-123). -/
def snapshotDefaults : List (String × Json) :=
  [("likes", Json.num 0), ("comments", Json.num 0), ("shares", Json.num 0),
   ("impressions", Json.num 0), ("reach", Json.num 0), ("clicks", Json.num 0),
   ("raw_data", Json.obj [])]

/-- `setattr(post_analytics, key, value)` on a model field: stored
snapshots hold exactly the model's fields, so assignment updates in
place. -/
def setField (s : List (String × Json)) (key : String) (v : Json) :
    List (String × Json) :=
  s.map fun kv => if kv.1 = key then (key, v) else kv

/-- The PostAnalytics table restricted to one post, keyed by the
publication's account (one snapshot per publication,
OneToOneField). -/
abbrev Store : Type := List (Account × List (String × Json))

/-- Snapshot lookup by publication. -/
def storeGet : Store → Account → Option (List (String × Json))
  | [], _ => none
  | (a0, s) :: rest, a => if a0 = a then some s else storeGet rest a

/-- Snapshot upsert by publication. -/
def storeSet : Store → Account → List (String × Json) → Store
  | [], a, s => [(a, s)]
  | (a0, s0) :: rest, a, s =>
    if a0 = a then (a0, s) :: rest else (a0, s0) :: storeSet rest a s

/-- `PostAnalytics.objects.get_or_create(publication=..., defaults=d)`
followed by the not-created update loop (factory.py lines 568-578): on
create, the dict's entries override the model defaults; on update, every
entry except raw_data is setattr'd and raw_data is set to
`d.get('raw_data', dict())`. -/
def snapUpdate (old : Option (List (String × Json))) (d : List (String × Json)) :
    List (String × Json) :=
  match old with
  | none => d.foldl (fun s kv => setField s kv.1 kv.2) snapshotDefaults
  | some s =>
    let s1 := d.foldl (fun s kv => if kv.1 = "raw_data" then s else setField s kv.1 kv.2) s
    setField s1 "raw_data" (alGetD d "raw_data" (Json.obj []))

/-- One iteration of get_post_analytics' loop over the successful
publications: skip unregistered platforms, query the adapter, and only a
truthy (non-empty) analytics dict is stored and reported; an escaping
exception becomes that platform's error entry. -/
def anaStep (env : AnaEnv) (acc : Store × ResMap) (pub : Publication) : Store × ResMap :=
  if supported pub.account.platform then
    match env.getAnalytics pub.account pub.platform_post_id with
    | .error msg => (acc.1, alSet acc.2 pub.account.platform [("error", Json.str msg)])
    | .ok d =>
      if d.isEmpty then acc
      else (storeSet acc.1 pub.account (snapUpdate (storeGet acc.1 pub.account) d),
            alSet acc.2 pub.account.platform d)
  else acc

/-- PostService.get_post_analytics (factory.py lines 551-585): iterate over
`post.publications.filter(is_success=True)` only, fold the per-publication
step over the snapshot store, and return the store plus the per-platform
analytics map. -/
def get_post_analytics (env : AnaEnv) (pubs : List Publication) (store : Store) :
    Store × ResMap :=
  (pubs.filter fun pub => pub.is_success).foldl (anaStep env) (store, [])

/-! ### Dictionary and step lemmas -/

/-- Lookup after a dict assignment: the assigned key reads the new value,
every other key is untouched. -/
theorem alGet_alSet {β : Type} (m : List (String × β)) (k k' : String) (v : β) :
    alGet (alSet m k v) k' = if k = k' then some v else alGet m k' := by
  induction m with
  | nil => rfl
  | cons hd tl ih =>
    obtain ⟨k0, w⟩ := hd
    simp only [alSet, alGet]
    by_cases h1 : k0 = k
    · subst h1
      by_cases h2 : k0 = k'
      · subst h2; simp [alGet]
      · simp [alGet, h2]
    · by_cases h2 : k0 = k'
      · subst h2
        have hk : ¬(k = k0) := fun h => h1 h.symm
        simp [alGet, h1, hk]
      · simp [alGet, h1, h2, ih]

/-- Every entry of a dict after an assignment is an original entry or the
assigned pair. -/
theorem mem_alSet {β : Type} {m : List (String × β)} {k : String} {v : β} :
    ∀ pr ∈ alSet m k v, pr ∈ m ∨ pr = (k, v) := by
  induction m with
  | nil =>
    intro pr h
    simp only [alSet, List.mem_singleton] at h
    exact Or.inr h
  | cons hd tl ih =>
    obtain ⟨k0, w⟩ := hd
    intro pr h
    simp only [alSet] at h
    by_cases h1 : k0 = k
    · rw [if_pos h1] at h
      rcases List.mem_cons.mp h with h2 | h2
      · subst h1; exact Or.inr h2
      · exact Or.inl (List.mem_cons_of_mem _ h2)
    · rw [if_neg h1] at h
      rcases List.mem_cons.mp h with h2 | h2
      · subst h2; exact Or.inl (List.mem_cons_self _ _)
      · rcases ih pr h2 with h3 | h3
        · exact Or.inl (List.mem_cons_of_mem _ h3)
        · exact Or.inr h3

/-- Dict assignment preserves distinctness of keys. -/
theorem alSet_keys_nodup {β : Type} {m : List (String × β)} (k : String) (v : β)
    (h : (m.map Prod.fst).Nodup) : ((alSet m k v).map Prod.fst).Nodup := by
  induction m with
  | nil => simp [alSet]
  | cons hd tl ih =>
    obtain ⟨k0, w⟩ := hd
    simp only [List.map_cons, List.nodup_cons] at h
    obtain ⟨hnot, htl⟩ := h
    simp only [alSet]
    by_cases h1 : k0 = k
    · rw [if_pos h1]
      simp only [List.map_cons, List.nodup_cons]
      exact ⟨hnot, htl⟩
    · rw [if_neg h1]
      simp only [List.map_cons, List.nodup_cons]
      refine ⟨?_, ih htl⟩
      intro hmem
      rcases List.mem_map.mp hmem with ⟨pr, hpr, hfst⟩
      rcases mem_alSet pr hpr with h2 | h2
      · exact hnot (hfst ▸ List.mem_map_of_mem Prod.fst h2)
      · subst h2; exact h1 hfst.symm

/-- The platform loop step writes exactly one outcome, at its own platform
key, and the outcome's success entry (when present) is a boolean. -/
theorem publishStep_snd (env : PubEnv) (acc : DB × ResMap) (q : String) :
    ∃ v, (publishStep env acc q).2 = alSet acc.2 q v ∧
      (alGet v "success" = none ∨ ∃ b, alGet v "success" = some (Json.bool b)) := by
  unfold publishStep
  split
  · exact ⟨_, rfl, Or.inl rfl⟩
  · exact ⟨_, rfl, Or.inl rfl⟩
  · split
    · split
      · exact ⟨_, rfl, Or.inl rfl⟩
      · split
        · exact ⟨_, rfl, Or.inl rfl⟩
        · exact ⟨_, rfl, Or.inr ⟨_, rfl⟩⟩
    · exact ⟨_, rfl, Or.inl rfl⟩

/-- The platform loop step either leaves the publication table unchanged or
appends one record whose account was not yet present. -/
theorem publishStep_fst (env : PubEnv) (acc : DB × ResMap) (q : String) :
    (publishStep env acc q).1 = acc.1 ∨
      ∃ pub, (acc.1.any fun r => decide (r.account = pub.account)) = false ∧
        (publishStep env acc q).1 = acc.1 ++ [pub] := by
  unfold publishStep
  split
  · exact Or.inl rfl
  · exact Or.inl rfl
  · split
    · split
      · exact Or.inl rfl
      · split
        · exact Or.inl rfl
        · rename_i db2 heq
          unfold dbCreate at heq
          split at heq
          · exact Except.noConfusion heq
          · rename_i hfalse
            injection heq with h2
            exact Or.inr ⟨_, Bool.eq_false_iff.mpr hfalse, h2.symm⟩
    · exact Or.inl rfl

/-- The outcome map after the platform loop has a key exactly for the
already-present keys and the processed platforms. -/
theorem keys_fold (env : PubEnv) (ps : List String) (acc : DB × ResMap) (p : String) :
    (alGet (ps.foldl (publishStep env) acc).2 p).isSome = true ↔
      (alGet acc.2 p).isSome = true ∨ p ∈ ps := by
  induction ps generalizing acc with
  | nil => simp
  | cons q rest ih =>
    rw [List.foldl_cons, ih]
    obtain ⟨v, hv, -⟩ := publishStep_snd env acc q
    rw [hv, alGet_alSet]
    by_cases h : q = p
    · subst h
      simp [List.mem_cons]
    · rw [if_neg h]
      simp only [List.mem_cons]
      constructor
      · rintro (h1 | h1)
        · exact Or.inl h1
        · exact Or.inr (Or.inr h1)
      · rintro (h1 | h1 | h1)
        · exact Or.inl h1
        · exact absurd h1.symm h
        · exact Or.inr h1

/-- The outcome map's keys remain distinct across the platform loop. -/
theorem resKeys_nodup_fold (env : PubEnv) (ps : List String) (acc : DB × ResMap)
    (h : (acc.2.map Prod.fst).Nodup) :
    (((ps.foldl (publishStep env) acc).2).map Prod.fst).Nodup := by
  induction ps generalizing acc with
  | nil => exact h
  | cons q rest ih =>
    rw [List.foldl_cons]
    apply ih
    obtain ⟨v, hv, -⟩ := publishStep_snd env acc q
    rw [hv]
    exact alSet_keys_nodup q v h

/-- Invariant of the outcome map: every outcome's success entry, when
present, is a boolean. -/
def successVals (results : ResMap) : Prop :=
  ∀ pr ∈ results, ∀ v, alGet pr.2 "success" = some v → ∃ b, v = Json.bool b

/-- The platform loop preserves the boolean-success invariant. -/
theorem successVals_fold (env : PubEnv) (ps : List String) (acc : DB × ResMap)
    (h : successVals acc.2) : successVals (ps.foldl (publishStep env) acc).2 := by
  induction ps generalizing acc with
  | nil => exact h
  | cons q rest ih =>
    rw [List.foldl_cons]
    apply ih
    obtain ⟨v, hv, hvs⟩ := publishStep_snd env acc q
    rw [hv]
    intro pr hpr w hw
    rcases mem_alSet pr hpr with h2 | h2
    · exact h pr h2 w hw
    · subst h2
      rcases hvs with h3 | ⟨b, h3⟩
      · rw [h3] at hw; exact Option.noConfusion hw
      · rw [h3] at hw; exact ⟨b, (Option.some.inj hw).symm⟩

/-- On a boolean-success map, the aggregation test holds exactly when some
outcome carries success = True. -/
theorem successfulB_iff (results : ResMap) (h : successVals results) :
    successfulB results = true ↔
      ∃ pr, pr ∈ results ∧ alGet pr.2 "success" = some (Json.bool true) := by
  unfold successfulB
  rw [List.any_eq_true]
  constructor
  · rintro ⟨pr, hm, ht⟩
    refine ⟨pr, hm, ?_⟩
    cases hv : alGet pr.2 "success" with
    | none => rw [hv] at ht; exact absurd ht (by simp [truthyO])
    | some w =>
      obtain ⟨b, hb⟩ := h pr hm w hv
      subst hb
      rw [hv] at ht
      cases b
      · exact absurd ht (by simp [truthyO, truthy])
      · rfl
  · rintro ⟨pr, hm, he⟩
    exact ⟨pr, hm, by rw [he]; rfl⟩

/-- Lookup of this post's publication record for an account (first match;
the table's accounts are distinct by the unique constraint). -/
def dbFind : DB → Account → Option Publication
  | [], _ => none
  | pub :: rest, a => if pub.account = a then some pub else dbFind rest a

/-- Appending a record does not change the lookup of an account already
present. -/
theorem dbFind_append (db : DB) (pub : Publication) (a : Account) (rec : Publication)
    (h : dbFind db a = some rec) : dbFind (db ++ [pub]) a = some rec := by
  induction db with
  | nil => exact Option.noConfusion h
  | cons p rest ih =>
    rw [List.cons_append]
    unfold dbFind at h ⊢
    by_cases hp : p.account = a
    · rwa [if_pos hp] at h ⊢
    · rw [if_neg hp] at h ⊢
      exact ih h

/-- The platform loop never modifies an existing publication record. -/
theorem dbFind_fold (env : PubEnv) (ps : List String) (acc : DB × ResMap) (a : Account)
    (rec : Publication) (h : dbFind acc.1 a = some rec) :
    dbFind ((ps.foldl (publishStep env) acc).1) a = some rec := by
  induction ps generalizing acc with
  | nil => exact h
  | cons q rest ih =>
    rw [List.foldl_cons]
    apply ih
    rcases publishStep_fst env acc q with h1 | ⟨pub, _, h1⟩
    · rw [h1]; exact h
    · rw [h1]; exact dbFind_append acc.1 pub a rec h

/-- If no record of the table has account `a`, the any-test is false means
exactly that. -/
theorem not_in_of_any_false {db : DB} {a : Account}
    (h : (db.any fun r => decide (r.account = a)) = false) :
    ∀ r ∈ db, r.account ≠ a := by
  intro r hr heq
  have h2 : (db.any fun r => decide (r.account = a)) = true :=
    List.any_eq_true.mpr ⟨r, hr, decide_eq_true heq⟩
  rw [h] at h2
  exact Bool.noConfusion h2

/-- The platform loop preserves distinctness of the records' accounts. -/
theorem dbNodup_fold (env : PubEnv) (ps : List String) (acc : DB × ResMap)
    (h : (acc.1.map Publication.account).Nodup) :
    (((ps.foldl (publishStep env) acc).1).map Publication.account).Nodup := by
  induction ps generalizing acc with
  | nil => exact h
  | cons q rest ih =>
    rw [List.foldl_cons]
    apply ih
    rcases publishStep_fst env acc q with h1 | ⟨pub, hany, h1⟩
    · rw [h1]; exact h
    · rw [h1, List.map_append]
      refine List.Nodup.append h (List.nodup_singleton _) ?_
      intro x hx hx2
      rcases List.mem_map.mp hx with ⟨r, hr, hrx⟩
      have hx3 : x = pub.account := by
        simpa using hx2
      exact not_in_of_any_false hany r hr (hrx.trans hx3)

/-- The first component of publish_post, written through the aggregation
test. -/
theorem publish_post_fst (env : PubEnv) (post : Post) (db : DB) :
    (publish_post env post db).1 =
      if successfulB (publishFold env post db).2 then
        { post with status := "published", published_date := some env.now }
      else { post with status := "failed" } := rfl

/-- The analytics step touches at most its publication's store entry and
its platform's map entry. -/
theorem anaStep_shape (env : AnaEnv) (acc : Store × ResMap) (pub : Publication) :
    ((anaStep env acc pub).1 = acc.1 ∨
      ∃ s, (anaStep env acc pub).1 = storeSet acc.1 pub.account s) ∧
    ((anaStep env acc pub).2 = acc.2 ∨
      ∃ v, (anaStep env acc pub).2 = alSet acc.2 pub.account.platform v) := by
  unfold anaStep
  split
  · split
    · exact ⟨Or.inl rfl, Or.inr ⟨_, rfl⟩⟩
    · split
      · exact ⟨Or.inl rfl, Or.inl rfl⟩
      · exact ⟨Or.inr ⟨_, rfl⟩, Or.inr ⟨_, rfl⟩⟩
  · exact ⟨Or.inl rfl, Or.inl rfl⟩

/-- An empty adapter analytics result makes the step a no-op: neither the
store nor the returned map changes. -/
theorem anaStep_empty (env : AnaEnv) (acc : Store × ResMap) (pub : Publication)
    (h : env.getAnalytics pub.account pub.platform_post_id = Except.ok []) :
    anaStep env acc pub = acc := by
  unfold anaStep
  by_cases hs : supported pub.account.platform
  · rw [if_pos hs, h]
    rfl
  · rw [if_neg hs]

/-- Snapshot lookup after a snapshot upsert. -/
theorem storeGet_storeSet (st : Store) (a b : Account) (s : List (String × Json)) :
    storeGet (storeSet st a s) b = if a = b then some s else storeGet st b := by
  induction st with
  | nil => rfl
  | cons hd tl ih =>
    obtain ⟨a0, s0⟩ := hd
    simp only [storeSet, storeGet]
    by_cases h1 : a0 = a
    · subst h1
      by_cases h2 : a0 = b
      · subst h2; simp [storeGet]
      · simp [storeGet, h2]
    · by_cases h2 : a0 = b
      · subst h2
        have hk : ¬(a = a0) := fun h => h1 h.symm
        simp [storeGet, h1, hk]
      · simp [storeGet, h1, h2, ih]

/-- Frame properties of the analytics loop over an arbitrary publication
list: a reported platform comes from a processed publication, a changed
store entry comes from a processed publication's account, and if every
processed publication of an account got an empty adapter result, that
account's snapshot is unchanged. -/
theorem anaFold_frame (env : AnaEnv) (l : List Publication) (acc : Store × ResMap) :
    (∀ p, (alGet (l.foldl (anaStep env) acc).2 p).isSome = true →
        (alGet acc.2 p).isSome = true ∨ ∃ pub, pub ∈ l ∧ pub.account.platform = p) ∧
    (∀ a, storeGet (l.foldl (anaStep env) acc).1 a ≠ storeGet acc.1 a →
        ∃ pub, pub ∈ l ∧ pub.account = a) ∧
    (∀ a, (∀ pub, pub ∈ l → pub.account = a →
            env.getAnalytics pub.account pub.platform_post_id = Except.ok []) →
        storeGet (l.foldl (anaStep env) acc).1 a = storeGet acc.1 a) := by
  induction l generalizing acc with
  | nil => exact ⟨fun p h => Or.inl h, fun a h => absurd rfl h, fun a _ => rfl⟩
  | cons pub rest ih =>
    refine ⟨?_, ?_, ?_⟩
    · intro p hp
      rw [List.foldl_cons] at hp
      rcases (ih (anaStep env acc pub)).1 p hp with h1 | ⟨pub2, hm, hplat⟩
      · rcases (anaStep_shape env acc pub).2 with h2 | ⟨v, h2⟩
        · rw [h2] at h1; exact Or.inl h1
        · rw [h2, alGet_alSet] at h1
          by_cases hq : pub.account.platform = p
          · exact Or.inr ⟨pub, List.mem_cons_self _ _, hq⟩
          · rw [if_neg hq] at h1; exact Or.inl h1
      · exact Or.inr ⟨pub2, List.mem_cons_of_mem _ hm, hplat⟩
    · intro a hne
      rw [List.foldl_cons] at hne
      by_cases h1 : storeGet (rest.foldl (anaStep env) (anaStep env acc pub)).1 a =
          storeGet (anaStep env acc pub).1 a
      · have h2 : storeGet (anaStep env acc pub).1 a ≠ storeGet acc.1 a := by
          intro h3; exact hne (h1.trans h3)
        rcases (anaStep_shape env acc pub).1 with h3 | ⟨s, h3⟩
        · rw [h3] at h2; exact absurd rfl h2
        · rw [h3, storeGet_storeSet] at h2
          by_cases hq : pub.account = a
          · exact ⟨pub, List.mem_cons_self _ _, hq⟩
          · rw [if_neg hq] at h2; exact absurd rfl h2
      · obtain ⟨pub2, hm, hacct⟩ := (ih (anaStep env acc pub)).2.1 a h1
        exact ⟨pub2, List.mem_cons_of_mem _ hm, hacct⟩
    · intro a hall
      rw [List.foldl_cons]
      by_cases hq : pub.account = a
      · rw [anaStep_empty env acc pub (hall pub (List.mem_cons_self _ _) hq)]
        exact (ih acc).2.2 a fun pub2 hm hacct => hall pub2 (List.mem_cons_of_mem _ hm) hacct
      · have h4 : storeGet (anaStep env acc pub).1 a = storeGet acc.1 a := by
          rcases (anaStep_shape env acc pub).1 with h3 | ⟨s, h3⟩
          · rw [h3]
          · rw [h3, storeGet_storeSet, if_neg hq]
        have h5 := (ih (anaStep env acc pub)).2.2 a
          fun pub2 hm hacct => hall pub2 (List.mem_cons_of_mem _ hm) hacct
        exact h5.trans h4

/-- The Twitter media loop raises exactly the exception of a raising media
download: any error it returns is a `raises` answer of the bare
requests.get on one of the media URLs. -/
theorem twitter_media_ids_error (net : Net) (rawGet : RawGet) (acct : Account) :
    ∀ (l : List String) (msg : String),
      TwitterAPI.media_ids net rawGet acct l = .error msg →
      ∃ u, u ∈ l ∧ rawGet u = GetOutcome.raises msg := by
  intro l
  induction l with
  | nil => intro msg h; exact Except.noConfusion h
  | cons u rest ih =>
    intro msg h
    unfold TwitterAPI.media_ids at h
    split at h
    · rename_i m hu
      injection h with h2
      subst h2
      unfold TwitterAPI.upload_media at hu
      split at hu
      · rename_i m2 hg
        injection hu with h3
        exact ⟨u, List.mem_cons_self u rest, by rw [hg, h3]⟩
      · split at hu
        · exact Except.noConfusion hu
        · exact Except.noConfusion hu
    · rename_i mid hu
      split at h
      · rename_i m2 hr
        injection h with h2
        subst h2
        obtain ⟨u2, hm, hg⟩ := ih m2 hr
        exact ⟨u2, List.mem_cons_of_mem u hm, hg⟩
      · exact Except.noConfusion h

/-- A delete built as "no error key in the `_make_request` result" is true
exactly when the platform answered 2xx JSON without an error key. -/
theorem delete_helper (net : Net) (r : Request) :
    ((!(alHas (make_request net r) "error")) = true ↔
      ∃ body, net r = HttpOutcome.ok body ∧ alHas body "error" = false) := by
  rcases hn : net r with msg | msg | msg | body
  · have hres : make_request net r = [("error", Json.str msg)] := by
      unfold make_request; rw [hn]
    rw [hres]
    constructor
    · intro habs; exact Bool.noConfusion habs
    · rintro ⟨body, hb, -⟩; exact HttpOutcome.noConfusion hb
  · have hres : make_request net r = [("error", Json.str msg)] := by
      unfold make_request; rw [hn]
    rw [hres]
    constructor
    · intro habs; exact Bool.noConfusion habs
    · rintro ⟨body, hb, -⟩; exact HttpOutcome.noConfusion hb
  · have hres : make_request net r = [("error", Json.str msg)] := by
      unfold make_request; rw [hn]
    rw [hres]
    constructor
    · intro habs; exact Bool.noConfusion habs
    · rintro ⟨body, hb, -⟩; exact HttpOutcome.noConfusion hb
  · have hres : make_request net r = body := by
      unfold make_request; rw [hn]
    rw [hres]
    constructor
    · intro h1
      refine ⟨body, rfl, ?_⟩
      cases hb : alHas body "error"
      · rfl
      · rw [hb] at h1; exact Bool.noConfusion h1
    · rintro ⟨body2, hb2, hfalse⟩
      injection hb2 with h3
      subst h3
      rw [hfalse]
      rfl

/-! ### Concrete accounts used by the counterexamples and witnesses -/

/-- A connected facebook account. -/
def acctFB : Account :=
  { platform := "facebook", account_id := "fb_acc", access_token := "fb_tok",
    is_active := true }

/-- A connected twitter account. -/
def acctTW : Account :=
  { platform := "twitter", account_id := "tw_acc", access_token := "tw_tok",
    is_active := true }

/-! ### Claim C1 -/

/-- First publish environment for the C1 scenario: only facebook
resolvable, adapter succeeds, clock at 1. -/
def envC1a : PubEnv :=
  { lookup := fun p => if p = "facebook" then .found acctFB else .notFound,
    createPost := fun _ _ => .ok [("id", Json.str "fb123")], now := 1 }

/-- Second publish environment for the C1 scenario: facebook and twitter
resolvable, adapters succeed, clock at 2. -/
def envC1b : PubEnv :=
  { lookup := fun p =>
      if p = "facebook" then .found acctFB
      else if p = "twitter" then .found acctTW else .notFound,
    createPost := fun _ _ => .ok [("id", Json.str "tw987")], now := 2 }

/-- The C1 post, targeting facebook and twitter. -/
def postC1 : Post :=
  { content := "hi", platforms := ["facebook", "twitter"], status := "draft",
    published_date := none }

/-- First publish of the C1 scenario. -/
def pubC1first : Post × DB × ResMap := publish_post envC1a postC1 []

/-- Second publish of the C1 scenario, on the state the first left. -/
def pubC1second : Post × DB × ResMap := publish_post envC1b pubC1first.1 pubC1first.2.1

/-- Counterexample to claim C1: the first publish succeeds (facebook) and
sets published_date to time 1; a later publish of the same post also has a
successful outcome (twitter, whose account has no attempt record yet) and
ADVANCES published_date to time 2 — the aggregation assigns timezone.now()
unconditionally whenever some outcome succeeded and never checks whether
published_date was already set. -/
theorem C1_counterexample :
    successfulB pubC1first.2.2 = true ∧ pubC1first.1.published_date = some 1 ∧
      successfulB pubC1second.2.2 = true ∧ pubC1second.1.published_date = some 2 :=
  ⟨rfl, rfl, rfl, rfl⟩

/-- Claim C1 (amended): published_date is assigned the current time on
every publish whose outcome map contains at least one success — it is set
again (advanced), not preserved, when a later publish succeeds again. -/
theorem C1_published_date_set_on_success (env : PubEnv) (post : Post) (db : DB)
    (h : successfulB (publish_post env post db).2.2 = true) :
    (publish_post env post db).1.published_date = some env.now ∧
      (publish_post env post db).1.status = "published" := by
  have hb : successfulB (publishFold env post db).2 = true := h
  rw [publish_post_fst, if_pos hb]
  exact ⟨rfl, rfl⟩

/-- Witness environment for the amended C1. -/
def envC1w : PubEnv :=
  { lookup := fun _ => .found acctFB,
    createPost := fun _ _ => .ok [("id", Json.str "x1")], now := 7 }

/-- Witness post for the amended C1. -/
def postC1w : Post :=
  { content := "hi", platforms := ["facebook"], status := "draft",
    published_date := none }

/-- Witness for the amended C1, at a concrete successful publish. -/
theorem C1_witness :
    (publish_post envC1w postC1w []).1.published_date = some 7 ∧
      (publish_post envC1w postC1w []).1.status = "published" :=
  C1_published_date_set_on_success envC1w postC1w [] rfl

/-! ### Claim C2 -/

/-- The failed attempt record the first C2 publish stores. -/
def pubC2fail : Publication :=
  { account := acctFB, platform_post_id := Json.str "", published_at := none,
    error_message := Json.str "rate limited", is_success := false }

/-- First C2 environment: the facebook adapter fails (rate limited). -/
def envC2a : PubEnv :=
  { lookup := fun p => if p = "facebook" then .found acctFB else .notFound,
    createPost := fun _ _ => .ok [("error", Json.str "rate limited")], now := 1 }

/-- Second C2 environment: the facebook adapter succeeds. -/
def envC2b : PubEnv :=
  { lookup := fun p => if p = "facebook" then .found acctFB else .notFound,
    createPost := fun _ _ => .ok [("id", Json.str "fb123")], now := 2 }

/-- The C2 post, targeting facebook only. -/
def postC2 : Post :=
  { content := "hi", platforms := ["facebook"], status := "draft",
    published_date := none }

/-- First publish of the C2 scenario (the adapter fails). -/
def pubC2first : Post × DB × ResMap := publish_post envC2a postC2 []

/-- Second publish of the C2 scenario (the adapter succeeds). -/
def pubC2second : Post × DB × ResMap := publish_post envC2b pubC2first.1 pubC2first.2.1

/-- Counterexample to claim C2: publish, fail, publish, succeed does NOT
leave one attempt record holding the success. publish_post inserts with a
plain create; the unique (post, account) constraint makes the second insert
fail, the generic except clause turns the IntegrityError into that
platform's error outcome, and the single record still holds the original
failure. -/
theorem C2_counterexample :
    pubC2first.2.1 = [pubC2fail] ∧ pubC2second.2.1 = [pubC2fail] ∧
      alGet pubC2second.2.2 "facebook" =
        some [("error",
          Json.str "IntegrityError: UNIQUE constraint failed post_id, account_id")] ∧
      pubC2second.1.status = "failed" :=
  ⟨rfl, rfl, rfl, rfl⟩

/-- Claim C2 (amended): at most one record exists per (post, account) —
account-distinctness of the table is preserved — but republishing never
overwrites: an existing pair's record is left exactly as it was. -/
theorem C2_attempt_records (env : PubEnv) (post : Post) (db : DB) :
    ((db.map Publication.account).Nodup →
      (((publish_post env post db).2.1).map Publication.account).Nodup) ∧
    (∀ a rec, dbFind db a = some rec →
      dbFind (publish_post env post db).2.1 a = some rec) := by
  have h21 : (publish_post env post db).2.1 = (publishFold env post db).1 := rfl
  rw [h21]
  unfold publishFold
  exact ⟨fun h => dbNodup_fold env post.platforms (db, []) h,
         fun a rec h => dbFind_fold env post.platforms (db, []) a rec h⟩

/-- Witness for the amended C2: with the failed facebook record already in
the table, a republish preserves account-distinctness and leaves that
record unchanged. -/
theorem C2_witness :
    (((publish_post envC2b postC2 [pubC2fail]).2.1).map Publication.account).Nodup ∧
      dbFind (publish_post envC2b postC2 [pubC2fail]).2.1 acctFB = some pubC2fail :=
  ⟨(C2_attempt_records envC2b postC2 [pubC2fail]).1 (by simp),
   (C2_attempt_records envC2b postC2 [pubC2fail]).2 acctFB pubC2fail rfl⟩

/-! ### Claim C3 -/

/-- Claim C3: publish returns a map with exactly one outcome per platform
of the post's target list — a key is present exactly for the targeted
platforms (so an individual platform's failure of any kind never removes
another platform's outcome), and the keys are distinct. -/
theorem C3_one_outcome_per_platform (env : PubEnv) (post : Post) (db : DB) :
    (∀ p, (alGet (publish_post env post db).2.2 p).isSome = true ↔ p ∈ post.platforms) ∧
      (((publish_post env post db).2.2).map Prod.fst).Nodup := by
  have h22 : (publish_post env post db).2.2 =
      (post.platforms.foldl (publishStep env) (db, ([] : ResMap))).2 := rfl
  rw [h22]
  constructor
  · intro p
    have h := keys_fold env post.platforms (db, ([] : ResMap)) p
    simpa [alGet] using h
  · exact resKeys_nodup_fold env post.platforms (db, ([] : ResMap)) (by simp)

/-! ### Claim C4 -/

/-- Claim C4: after publish, the post's status is published exactly when
some returned outcome carries success = True, and failed exactly when none
does (outcomes such as a missing active account carry no success entry at
all and so never count). -/
theorem C4_status_aggregation (env : PubEnv) (post : Post) (db : DB) :
    ((publish_post env post db).1.status = "published" ↔
      ∃ pr, pr ∈ (publish_post env post db).2.2 ∧
        alGet pr.2 "success" = some (Json.bool true)) ∧
    ((publish_post env post db).1.status = "failed" ↔
      ¬ ∃ pr, pr ∈ (publish_post env post db).2.2 ∧
        alGet pr.2 "success" = some (Json.bool true)) := by
  have hsv : successVals (publishFold env post db).2 :=
    successVals_fold env post.platforms (db, ([] : ResMap))
      (fun pr h => absurd h (List.not_mem_nil pr))
  have hiff := successfulB_iff (publishFold env post db).2 hsv
  cases hb : successfulB (publishFold env post db).2 with
  | true =>
    have hst : (publish_post env post db).1.status = "published" := by
      rw [publish_post_fst, if_pos hb]
    have hex : ∃ pr, pr ∈ (publish_post env post db).2.2 ∧
        alGet pr.2 "success" = some (Json.bool true) := hiff.mp hb
    refine ⟨⟨fun _ => hex, fun _ => hst⟩, ⟨?_, ?_⟩⟩
    · intro hf; exact absurd (hst.symm.trans hf) (by decide)
    · intro hn; exact absurd hex hn
  | false =>
    have hst : (publish_post env post db).1.status = "failed" := by
      rw [publish_post_fst, if_neg (by rw [hb]; exact Bool.false_ne_true)]
    have hnex : ¬ ∃ pr, pr ∈ (publish_post env post db).2.2 ∧
        alGet pr.2 "success" = some (Json.bool true) := by
      intro hex
      have h2 := hiff.mpr hex
      rw [hb] at h2
      exact Bool.noConfusion h2
    refine ⟨⟨?_, ?_⟩, ⟨fun _ => hnex, fun _ => hst⟩⟩
    · intro hp; exact absurd (hst.symm.trans hp) (by decide)
    · intro hex; exact absurd hex hnex

/-! ### Claim C10 -/

/-- Claim C10: publishing a post with an empty platform list returns an
empty outcome map, creates no attempt record, sets status to failed (the
at-least-one-success aggregation is vacuously unmet), and leaves
published_date exactly as it was (unset stays unset). -/
theorem C10_empty_platforms (env : PubEnv) (post : Post) (db : DB)
    (h : post.platforms = []) :
    publish_post env post db = ({ post with status := "failed" }, db, ([] : ResMap)) := by
  unfold publish_post publishFold
  rw [h]
  rfl

/-- Witness environment for C10. -/
def envC10 : PubEnv :=
  { lookup := fun _ => .notFound, createPost := fun _ _ => .ok [], now := 0 }

/-- Witness post for C10: no target platforms, unset published_date. -/
def postC10 : Post :=
  { content := "hello", platforms := [], status := "draft", published_date := none }

/-- Witness for C10 at a concrete post with no platforms. -/
theorem C10_witness :
    publish_post envC10 postC10 [] =
      ({ content := "hello", platforms := [], status := "failed",
         published_date := none }, ([] : DB), ([] : ResMap)) :=
  C10_empty_platforms envC10 postC10 [] rfl

/-! ### Claim C5 -/

/-- Claim C5 (amended): when every media upload fails (no media id is
collected), FacebookAPI.create_post silently performs the text-only feed
POST — the result is exactly the plain message request's result, with no
attached media and no MediaUploadFailed error of any kind. -/
theorem C5_text_only_when_all_uploads_fail (net : Net) (acct : Account) (content : String)
    (media_urls : List String) (h : FacebookAPI.media_ids net acct media_urls = []) :
    FacebookAPI.create_post net acct content media_urls =
      make_request net (FacebookAPI.feed_request acct
        [("message", Json.str content), ("access_token", Json.str acct.access_token)]) := by
  by_cases he : media_urls.isEmpty
  · simp only [FacebookAPI.create_post, if_pos he]
  · simp only [FacebookAPI.create_post, if_neg he, h, List.isEmpty_nil, if_true]

/-- Network for the C5 scenario: every photo upload of acctFB fails with a
client error, the feed endpoint succeeds. -/
def netC5 : Net := fun r =>
  if r.url = FacebookAPI.photos_url acctFB then .httpError "400 Client Error: Bad Request"
  else .ok [("id", Json.str "fbpost9")]

/-- Counterexample to claim C5: both media uploads fail, yet create_post
returns the successful text-only post result — no MediaUploadFailed is
reported for the call (the result has no error at all). -/
theorem C5_counterexample :
    FacebookAPI.create_post netC5 acctFB "hello" ["u1", "u2"] =
        [("id", Json.str "fbpost9")] ∧
      alHas (FacebookAPI.create_post netC5 acctFB "hello" ["u1", "u2"]) "error" = false :=
  ⟨rfl, rfl⟩

/-- Witness for the amended C5: at the concrete all-uploads-fail network,
create_post equals the plain text-only request's result. -/
theorem C5_witness :
    FacebookAPI.media_ids netC5 acctFB ["u1", "u2"] = [] ∧
      FacebookAPI.create_post netC5 acctFB "hello" ["u1", "u2"] =
        make_request netC5 (FacebookAPI.feed_request acctFB
          [("message", Json.str "hello"), ("access_token", Json.str acctFB.access_token)]) :=
  ⟨rfl, C5_text_only_when_all_uploads_fail netC5 acctFB "hello" ["u1", "u2"] rfl⟩

/-! ### Claim C6 -/

/-- Claim C6 (amended): every failure of a platform call routed through
_make_request is returned as error data, never thrown; but
TwitterAPI.create_post can raise — exactly when its bare media download
(requests.get, outside _make_request) raises, and any exception it
propagates is such a download exception. -/
theorem C6_failures_as_data :
    (∀ (net : Net) (r : Request) (msg : String),
        net r = HttpOutcome.netError msg ∨ net r = HttpOutcome.httpError msg ∨
          net r = HttpOutcome.nonJson msg →
        make_request net r = [("error", Json.str msg)]) ∧
    (∀ (net : Net) (rawGet : RawGet) (acct : Account) (content : String)
        (media_urls : List String) (msg : String),
        TwitterAPI.create_post net rawGet acct content media_urls = .error msg →
        ∃ u, u ∈ media_urls ∧ rawGet u = GetOutcome.raises msg) := by
  constructor
  · intro net r msg h
    unfold make_request
    rcases h with h | h | h <;> rw [h]
  · intro net rawGet acct content media_urls msg h
    unfold TwitterAPI.create_post at h
    by_cases he : media_urls.isEmpty
    · rw [if_pos he] at h
      exact Except.noConfusion h
    · rw [if_neg he] at h
      split at h
      · rename_i m hm
        injection h with h2
        subst h2
        exact twitter_media_ids_error net rawGet acct media_urls m hm
      · exact Except.noConfusion h

/-- Network and download oracles for the C6 scenario. -/
def netC6 : Net := fun _ => .httpError "401 Client Error: Unauthorized"

/-- A network that always answers an empty 2xx JSON object. -/
def netC6ok : Net := fun _ => .ok []

/-- A media download that raises a connection error. -/
def rawGetC6 : RawGet := fun _ => .raises "ConnectionError: connection refused"

/-- A sample request for the C6 witness. -/
def reqC6 : Request :=
  { method := "GET", url := "https://example.test/", headers := [], query := [],
    payload := .empty }

/-- Counterexample to claim C6: a network error during the media download
makes TwitterAPI.create_post raise (the exception escapes the adapter as a
fault) instead of returning the failure as data. -/
theorem C6_counterexample :
    TwitterAPI.create_post netC6ok rawGetC6 acctTW "hi" ["u1"] =
      Except.error "ConnectionError: connection refused" := rfl

/-- Witness for the amended C6 at concrete inputs: an HTTP failure comes
back as an error dict, and the raising download is identified as the
source of the Twitter exception. -/
theorem C6_witness :
    make_request netC6 reqC6 = [("error", Json.str "401 Client Error: Unauthorized")] ∧
      ∃ u, u ∈ ["u1"] ∧ rawGetC6 u = GetOutcome.raises "ConnectionError: connection refused" :=
  ⟨C6_failures_as_data.1 netC6 reqC6 "401 Client Error: Unauthorized" (Or.inr (Or.inl rfl)),
   C6_failures_as_data.2 netC6ok rawGetC6 acctTW "hi" ["u1"]
     "ConnectionError: connection refused" rfl⟩

/-! ### Claim C7 -/

/-- Claim C7 (amended): for the Facebook and Twitter adapters, deletePost
returns true exactly when the platform answered 2xx JSON without an error
key — absence of a recognizable error field IS the whole confirmation; no
explicit confirmation signal is required. -/
theorem C7_delete_true_iff_no_error_key (net : Net) (acct : Account) (post_id : String) :
    (FacebookAPI.delete_post net acct post_id = true ↔
      ∃ body, net (FacebookAPI.delete_request acct post_id) = HttpOutcome.ok body ∧
        alHas body "error" = false) ∧
    (TwitterAPI.delete_post net acct post_id = true ↔
      ∃ body, net (TwitterAPI.delete_request acct post_id) = HttpOutcome.ok body ∧
        alHas body "error" = false) :=
  ⟨delete_helper net (FacebookAPI.delete_request acct post_id),
   delete_helper net (TwitterAPI.delete_request acct post_id)⟩

/-- Network for the C7 counterexample: a 2xx answer with unrelated content
and no recognizable error field. -/
def netC7 : Net := fun _ => .ok [("unrelated", Json.str "payload")]

/-- Counterexample to claim C7: a response that merely lacks an error field
— it confirms nothing — makes deletePost return true for both adapters. -/
theorem C7_counterexample :
    FacebookAPI.delete_post netC7 acctFB "someid" = true ∧
      TwitterAPI.delete_post netC7 acctTW "someid" = true :=
  ⟨rfl, rfl⟩

/-! ### Claim C8 -/

/-- Claim C8: the analytics sync queries only successful attempts — a
platform reported in the returned map comes from a successful publication,
a changed snapshot belongs to a successful publication's account (so a
platform with no successful attempt gets no snapshot), and when every
relevant adapter answer is the empty dict, the previously stored snapshot
is left untouched. -/
theorem C8_analytics_frame (env : AnaEnv) (pubs : List Publication) (store : Store) :
    (∀ p, (alGet (get_post_analytics env pubs store).2 p).isSome = true →
        ∃ pub, pub ∈ pubs ∧ pub.is_success = true ∧ pub.account.platform = p) ∧
    (∀ a, storeGet (get_post_analytics env pubs store).1 a ≠ storeGet store a →
        ∃ pub, pub ∈ pubs ∧ pub.is_success = true ∧ pub.account = a) ∧
    (∀ a, (∀ pub, pub ∈ pubs → pub.is_success = true → pub.account = a →
            env.getAnalytics pub.account pub.platform_post_id = Except.ok []) →
        storeGet (get_post_analytics env pubs store).1 a = storeGet store a) := by
  have h := anaFold_frame env (pubs.filter fun pub => pub.is_success) (store, ([] : ResMap))
  refine ⟨?_, ?_, ?_⟩
  · intro p hp
    rcases h.1 p hp with h1 | ⟨pub, hm, hplat⟩
    · exact absurd h1 (by simp [alGet])
    · have hm2 := List.mem_filter.mp hm
      exact ⟨pub, hm2.1, hm2.2, hplat⟩
  · intro a hne
    obtain ⟨pub, hm, hacct⟩ := h.2.1 a hne
    have hm2 := List.mem_filter.mp hm
    exact ⟨pub, hm2.1, hm2.2, hacct⟩
  · intro a hall
    exact h.2.2 a fun pub hm hacct =>
      hall pub (List.mem_filter.mp hm).1 (List.mem_filter.mp hm).2 hacct

/-- Analytics environment for the C8 witness: the adapter always answers
the empty dict (analytics unavailable). -/
def envC8 : AnaEnv := { getAnalytics := fun _ _ => .ok [] }

/-- A successful facebook publication for the C8 witness. -/
def pubC8 : Publication :=
  { account := acctFB, platform_post_id := Json.str "fb1", published_at := some 1,
    error_message := Json.str "", is_success := true }

/-- A stored snapshot with prior counters for the C8 witness. -/
def storeC8 : Store := [(acctFB, [("likes", Json.num 10)])]

/-- Witness for C8: a sync in which the adapter returns the empty dict
leaves the prior likes = 10 snapshot exactly as it was. -/
theorem C8_witness :
    storeGet (get_post_analytics envC8 [pubC8] storeC8).1 acctFB =
      some [("likes", Json.num 10)] :=
  ((C8_analytics_frame envC8 [pubC8] storeC8).2.2 acctFB fun _ _ _ _ => rfl).trans rfl

/-! ### Claim C9 -/

/-- Network for the C9 scenario: the create-tweet endpoint answers the
Twitter v2 shape, with the new tweet's id nested under data (the same
nesting the repository's own Twitter analytics parser reads). -/
def netC9 : Net := fun r =>
  if r.url = TW_BASE_URL ++ "/tweets" then
    .ok [("data", Json.obj [("id", Json.str "tw1"), ("text", Json.str "hi")])]
  else .netError "unexpected request"

/-- Unused download oracle for the C9 scenario (no media). -/
def rawGetC9 : RawGet := fun _ => .raises "unused"

/-- Publish environment for the C9 scenario: the twitter account resolves
and the dispatch runs the real TwitterAPI adapter model against netC9. -/
def envC9 : PubEnv :=
  { lookup := fun p => if p = "twitter" then .found acctTW else .notFound,
    createPost := fun _ acct => TwitterAPI.create_post netC9 rawGetC9 acct "hi" [],
    now := 5 }

/-- The C9 post, targeting twitter only. -/
def postC9 : Post :=
  { content := "hi", platforms := ["twitter"], status := "draft",
    published_date := none }

/-- Claim C9, evaluated at the failing input: a successful Twitter create
(2xx, no error key, id nested under data) stores an attempt record with
is_success = True and an EMPTY platform_post_id — result.get('id', '')
misses the nested id — so the id is not empty-exactly-on-failure. -/
theorem C9_twitter_success_empty_id :
    (publish_post envC9 postC9 []).2.1 =
      [{ account := acctTW, platform_post_id := Json.str "", published_at := some 5,
         error_message := Json.str "", is_success := true }] ∧
      alGet (publish_post envC9 postC9 []).2.2 "twitter" =
        some [("success", Json.bool true), ("post_id", Json.str ""),
              ("error", Json.str "")] :=
  ⟨rfl, rfl⟩
